import Mathlib

/-!
Verification of the multitools backend (Express server in `server.js`).
The pure data flow of each HTTP handler is embedded as a Lean function;
external collaborators (filesystem reads, libreoffice, sharp, the ffmpeg
child process) are passed in as oracle functions, and every side effect
that the spec's cleanup invariant talks about (unlink attempts, process
spawns, output reads) is recorded in an explicit event trace.
-/

/-! ## Base64 (Buffer.toString("base64") and its decoding) -/

def b64CharList : List Char :=
  ("ABCDEFGHIJKLMNOPQRSTUVWXYZabcdefghijklmnopqrstuvwxyz0123456789+/").toList

def b64Char (n : Nat) : Char := b64CharList.getD n '?'

def b64Index (c : Char) : Option Nat := b64CharList.findIdx? (fun d => d == c)

theorem b64Index_b64Char : ∀ n, n < 64 → b64Index (b64Char n) = some n := by decide

theorem b64Char_ne_pad : ∀ n, n < 64 → b64Char n ≠ '=' := by decide

/-- Standard base64 encoding of a byte list (bytes as naturals below 256). -/
def b64EncodeList : List Nat → List Char
  | [] => []
  | [a] => [b64Char (a / 4), b64Char (a % 4 * 16), '=', '=']
  | [a, b] => [b64Char (a / 4), b64Char (a % 4 * 16 + b / 16), b64Char (b % 16 * 4), '=']
  | a :: b :: c :: rest =>
      b64Char (a / 4) :: b64Char (a % 4 * 16 + b / 16) :: b64Char (b % 16 * 4 + c / 64) ::
        b64Char (c % 64) :: b64EncodeList rest

/-- Standard base64 decoding; `none` on malformed input. -/
def b64DecodeList : List Char → Option (List Nat)
  | w :: x :: y :: z :: rest =>
      (match b64Index w, b64Index x with
      | some iw, some ix =>
        if y = '=' then
          if z = '=' ∧ rest = [] then some [iw * 4 + ix / 16] else none
        else
          (match b64Index y with
          | some iy =>
            if z = '=' then
              if rest = [] then some [iw * 4 + ix / 16, ix % 16 * 16 + iy / 4] else none
            else
              (match b64Index z, b64DecodeList rest with
              | some iz, some ds =>
                  some ((iw * 4 + ix / 16) :: (ix % 16 * 16 + iy / 4) :: (iy % 4 * 64 + iz) :: ds)
              | _, _ => none)
          | none => none)
      | _, _ => none)
  | [] => some []
  | _ => none

theorem b64_roundtrip_list : ∀ l : List Nat, (∀ x ∈ l, x < 256) →
    b64DecodeList (b64EncodeList l) = some l
  | [], _ => rfl
  | [a], h => by
      have ha : a < 256 := h a (by simp)
      have h1 : a / 4 < 64 := by omega
      have h2 : a % 4 * 16 < 64 := by omega
      simp only [b64EncodeList, b64DecodeList, b64Index_b64Char _ h1, b64Index_b64Char _ h2]
      simp
      omega
  | [a, b], h => by
      have ha : a < 256 := h a (by simp)
      have hb : b < 256 := h b (by simp)
      have h1 : a / 4 < 64 := by omega
      have h2 : a % 4 * 16 + b / 16 < 64 := by omega
      have h3 : b % 16 * 4 < 64 := by omega
      simp only [b64EncodeList, b64DecodeList, b64Index_b64Char _ h1, b64Index_b64Char _ h2,
        b64Index_b64Char _ h3]
      rw [if_neg (b64Char_ne_pad _ h3)]
      simp [b64Index_b64Char _ h3]
      omega
  | a :: b :: c :: rest, h => by
      have ha : a < 256 := h a (by simp)
      have hb : b < 256 := h b (by simp)
      have hc : c < 256 := h c (by simp)
      have ih := b64_roundtrip_list rest (fun x hx => h x (by simp [hx]))
      have h1 : a / 4 < 64 := by omega
      have h2 : a % 4 * 16 + b / 16 < 64 := by omega
      have h3 : b % 16 * 4 + c / 64 < 64 := by omega
      have h4 : c % 64 < 64 := by omega
      simp only [b64EncodeList, b64DecodeList, b64Index_b64Char _ h1, b64Index_b64Char _ h2]
      rw [if_neg (b64Char_ne_pad _ h3)]
      simp only [b64Index_b64Char _ h3]
      rw [if_neg (b64Char_ne_pad _ h4)]
      simp [b64Index_b64Char _ h4, ih]
      omega

def b64Encode (l : List Nat) : String := String.mk (b64EncodeList l)

def b64Decode (s : String) : Option (List Nat) := b64DecodeList s.toList

theorem b64_roundtrip (l : List Nat) (h : ∀ x ∈ l, x < 256) :
    b64Decode (b64Encode l) = some l := by
  show b64DecodeList (String.mk (b64EncodeList l)).toList = some l
  rw [show (String.mk (b64EncodeList l)).toList = b64EncodeList l from rfl]
  exact b64_roundtrip_list l h

/-! ## String utilities used by the handlers -/

/-- JS `String.prototype.toLowerCase` restricted to the ASCII range. -/
def jsLower (s : String) : String := String.mk (s.toList.map Char.toLower)

/-- Node `path.extname` on a basename: the substring from the last `.` to the
end; empty when there is no dot or the only dot starts the name. -/
def extname (s : String) : String :=
  let r := s.toList.reverse
  let after := r.takeWhile (fun c => c != '.')
  if r.length ≤ after.length + 1 then "" else String.mk ('.' :: after.reverse)

/-- JS `name.replace(/\.src$/i, dst)` for a literal extension `src` such as
`".docx"`: replace a case-insensitive match of `src` at the end of the name. -/
def replaceExtSuffix (name src dst : String) : String :=
  let n := name.toList
  let k := src.toList.length
  if k ≤ n.length ∧ String.mk ((n.drop (n.length - k)).map Char.toLower) = src then
    String.mk (n.take (n.length - k)) ++ dst
  else name

/-- JS `name.replace(/\.[^.]+$/, "." ++ fmt)`: replace the final extension
(a dot followed by one or more non-dot characters ending the string). -/
def replaceFinalExt (name fmt : String) : String :=
  let r := name.toList.reverse
  let after := r.takeWhile (fun c => c != '.')
  if after.length ≠ 0 ∧ after.length < r.length then
    String.mk ((r.drop (after.length + 1)).reverse) ++ "." ++ fmt
  else name

/-- The name has a final extension (`/\.[^.]+$/` matches) with a nonempty
stem before the dot. -/
def hasProperFinalExt (name : String) : Bool :=
  let r := name.toList.reverse
  let after := r.takeWhile (fun c => c != '.')
  decide (after.length ≠ 0 ∧ after.length + 1 < r.length)

/-! ## Data model -/

inductive MetaVal where
  | n (v : Nat)
  | q (v : ℚ)
  | s (v : String)
deriving DecidableEq

structure Envelope where
  fileName : String
  mimeType : String
  dataUrl : String
  extra : List (String × MetaVal)
deriving DecidableEq

inductive Response (α : Type) where
  | ok (body : α)
  | err (status : Nat) (message : String) (details : Option String)
deriving DecidableEq

structure UploadedFile where
  path : String
  originalname : String
  mimetype : String
  size : Nat
deriving DecidableEq

/-- Events a handler performs on the outside world, in order: unlink
attempts (`safeUnlink`), document-engine / image-codec invocations, ffmpeg
spawns and output-file reads. -/
inductive Event where
  | unlink (path : String)
  | convertDoc
  | sharpJpeg
  | spawn (args : List String)
  | readOut (path : String)
deriving DecidableEq

/-- Outcome of the ffmpeg child process: a dispatch-level `error` event, or
a `close` event with an exit code and the accumulated stderr text. -/
inductive ProcOutcome where
  | spawnFail (message : String)
  | exited (code : Int) (stderrText : String)
deriving DecidableEq

/-- `fileToDataUrlResponse` from the source: build the JSON envelope with an
embedded base64 data URL. -/
def fileToDataUrlResponse (buffer : List Nat) (mimeType fileName : String)
    (extra : List (String × MetaVal)) : Envelope :=
  { fileName := fileName, mimeType := mimeType,
    dataUrl := "data:" ++ mimeType ++ ";base64," ++ b64Encode buffer,
    extra := extra }

def countUnlink (p : String) : List Event → Nat
  | [] => 0
  | Event.unlink q :: rest => (if q = p then 1 else 0) + countUnlink p rest
  | _ :: rest => countUnlink p rest

def hasSpawnEvent : List Event → Bool
  | [] => false
  | Event.spawn _ :: _ => true
  | _ :: rest => hasSpawnEvent rest

def uploadDir : String := "uploads"

/-! ## Document conversion handlers -/

/-- Body of the docx-to-pdf `try` block; the `finally` unlink is appended by
the handler. Throwing operations (file read, engine conversion) are oracles
returning `Except`, and the `catch` block is the `.error` branches. -/
def docxToPdfTry (f : UploadedFile)
    (fsRead : String → Except String (List Nat))
    (convert : List Nat → Except String (List Nat)) :
    Response Envelope × List Event :=
  let ext := jsLower (extname f.originalname)
  if ext ≠ ".docx" then
    (Response.err 400 "Only .docx files are allowed" none, [Event.unlink f.path])
  else
    match fsRead f.path with
    | Except.error e => (Response.err 500 "Conversion failed" (some e), [])
    | Except.ok docxBuf =>
      match convert docxBuf with
      | Except.error e => (Response.err 500 "Conversion failed" (some e), [Event.convertDoc])
      | Except.ok pdfBuf =>
        (Response.ok (fileToDataUrlResponse pdfBuf "application/pdf"
            (replaceExtSuffix f.originalname ".docx" ".pdf") []),
         [Event.convertDoc])

/-- `POST /api/convert/docx-to-pdf`. -/
def docxToPdfHandler (fileField : Option UploadedFile)
    (fsRead : String → Except String (List Nat))
    (convert : List Nat → Except String (List Nat)) :
    Response Envelope × List Event :=
  match fileField with
  | none => (Response.err 400 "No file uploaded" none, [])
  | some f =>
    let r := docxToPdfTry f fsRead convert
    (r.1, r.2 ++ [Event.unlink f.path])

def docxMimeType : String :=
  "application/vnd.openxmlformats-officedocument.wordprocessingml.document"

/-- Body of the pdf-to-docx `try` block. -/
def pdfToDocxTry (f : UploadedFile)
    (fsRead : String → Except String (List Nat))
    (convert : List Nat → Except String (List Nat)) :
    Response Envelope × List Event :=
  let ext := jsLower (extname f.originalname)
  if ext ≠ ".pdf" then
    (Response.err 400 "Only .pdf files are allowed" none, [Event.unlink f.path])
  else
    match fsRead f.path with
    | Except.error e => (Response.err 500 "Conversion failed" (some e), [])
    | Except.ok pdfBuf =>
      match convert pdfBuf with
      | Except.error e => (Response.err 500 "Conversion failed" (some e), [Event.convertDoc])
      | Except.ok docxBuf =>
        (Response.ok (fileToDataUrlResponse docxBuf docxMimeType
            (replaceExtSuffix f.originalname ".pdf" ".docx") []),
         [Event.convertDoc])

/-- `POST /api/convert/pdf-to-docx`. -/
def pdfToDocxHandler (fileField : Option UploadedFile)
    (fsRead : String → Except String (List Nat))
    (convert : List Nat → Except String (List Nat)) :
    Response Envelope × List Event :=
  match fileField with
  | none => (Response.err 400 "No file uploaded" none, [])
  | some f =>
    let r := pdfToDocxTry f fsRead convert
    (r.1, r.2 ++ [Event.unlink f.path])

/-! ## Image compression handler -/

def imageAllowedMimes : List String := ["image/jpeg", "image/png", "image/webp"]

/-- Body of the image-compress `try` block; `sharpJpeg70` is the
`sharp(path).jpeg(quality 70).toBuffer()` oracle. -/
def imageCompressTry (f : UploadedFile) (uuid : String)
    (sharpJpeg70 : String → Except String (List Nat)) :
    Response Envelope × List Event :=
  if f.mimetype ∉ imageAllowedMimes then
    (Response.err 400 "Only JPEG, PNG, or WebP images are allowed" none, [Event.unlink f.path])
  else
    match sharpJpeg70 f.path with
    | Except.error e => (Response.err 500 "Image compression failed" (some e), [Event.sharpJpeg])
    | Except.ok buf =>
      (Response.ok (fileToDataUrlResponse buf "image/jpeg" (uuid ++ ".jpg")
          [("originalSize", MetaVal.n f.size), ("compressedSize", MetaVal.n buf.length),
           ("compressionRatio", MetaVal.q ((buf.length : ℚ) / (f.size : ℚ)))]),
       [Event.sharpJpeg])

/-- `POST /api/image/compress`. -/
def imageCompressHandler (fileField : Option UploadedFile) (uuid : String)
    (sharpJpeg70 : String → Except String (List Nat)) :
    Response Envelope × List Event :=
  match fileField with
  | none => (Response.err 400 "No file uploaded" none, [])
  | some f =>
    let r := imageCompressTry f uuid sharpJpeg70
    (r.1, r.2 ++ [Event.unlink f.path])

/-! ## Audio conversion handler -/

def allowedInputTypes : List String :=
  ["audio/flac", "audio/x-flac", "audio/aac", "audio/x-aac", "audio/wav", "audio/x-wav",
   "audio/ogg", "audio/x-ogg", "audio/alac"]

def allowedOutputFormats : List String := ["mp3", "aac", "wav", "ogg"]

def formatArgs (safeFormat bitrate : String) : List String :=
  if safeFormat = "mp3" then ["-codec:a", "libmp3lame", "-b:a", bitrate]
  else if safeFormat = "aac" then ["-codec:a", "aac", "-b:a", bitrate]
  else if safeFormat = "wav" then ["-codec:a", "pcm_s16le"]
  else if safeFormat = "ogg" then ["-codec:a", "libvorbis", "-b:a", bitrate]
  else []

def audioMime (safeFormat : String) : String :=
  if safeFormat = "aac" then "audio/aac"
  else if safeFormat = "wav" then "audio/wav"
  else if safeFormat = "ogg" then "audio/ogg"
  else "audio/mpeg"

/-- `path.join(uploadDir, uuid ++ "." ++ safeFormat)`. -/
def audioOutputPath (uuid safeFormat : String) : String :=
  uploadDir ++ "/" ++ uuid ++ "." ++ safeFormat

/-- The full ffmpeg argument list `[...commonArgs, ...formatArgs, outputPath]`. -/
def audioArgs (inputPath outputPath safeFormat bitrate : String) : List String :=
  ["-y", "-i", inputPath, "-vn"] ++ formatArgs safeFormat bitrate ++ [outputPath]

/-- Body of the audio `try` block: run ffmpeg (oracle `run`), then on exit 0
read the output path; any rejection lands in the `catch` branches. -/
def audioTry (f : UploadedFile) (safeFormat bitrate outputPath : String)
    (run : List String → ProcOutcome)
    (fsRead : String → Except String (List Nat)) :
    Response Envelope × List Event :=
  let ffArgs := audioArgs f.path outputPath safeFormat bitrate
  match run ffArgs with
  | ProcOutcome.spawnFail m =>
      (Response.err 500 "Audio conversion failed" (some m), [Event.spawn ffArgs])
  | ProcOutcome.exited code stderrText =>
    if code = 0 then
      match fsRead outputPath with
      | Except.error e =>
          (Response.err 500 "Audio conversion failed" (some e),
           [Event.spawn ffArgs, Event.readOut outputPath])
      | Except.ok buf =>
          (Response.ok (fileToDataUrlResponse buf (audioMime safeFormat)
              (replaceFinalExt f.originalname safeFormat)
              [("targetFormat", MetaVal.s safeFormat), ("bitrate", MetaVal.s bitrate),
               ("size", MetaVal.n buf.length)]),
           [Event.spawn ffArgs, Event.readOut outputPath])
    else
      (Response.err 500 "Audio conversion failed"
          (some ("ffmpeg exited with code " ++ toString code ++ ": " ++ stderrText)),
       [Event.spawn ffArgs])

/-- `POST /api/audio/convert`. Form fields are `none` when absent; `uuid` is
the fresh identifier the request draws for its output path. -/
def audioConvertHandler (fileField : Option UploadedFile)
    (targetFormatField bitrateField : Option String) (uuid : String)
    (run : List String → ProcOutcome)
    (fsRead : String → Except String (List Nat)) :
    Response Envelope × List Event :=
  match fileField with
  | none => (Response.err 400 "No file uploaded" none, [])
  | some f =>
    let targetFormat := targetFormatField.getD "mp3"
    let bitrate := bitrateField.getD "192k"
    let safeFormat := jsLower targetFormat
    if safeFormat ∉ allowedOutputFormats then
      (Response.err 400 "Invalid target format" none, [Event.unlink f.path])
    else if f.mimetype ∉ allowedInputTypes then
      (Response.err 400 "Unsupported input audio format" none, [Event.unlink f.path])
    else
      let outputPath := audioOutputPath uuid safeFormat
      let r := audioTry f safeFormat bitrate outputPath run fsRead
      (r.1, r.2 ++ [Event.unlink f.path, Event.unlink outputPath])

/-! ## BMI handler -/

/-- A JSON value as the BMI endpoint may receive it; `nan` is the IEEE NaN. -/
inductive JsValue where
  | undef
  | nullv
  | boolean (b : Bool)
  | number (q : ℚ)
  | nan
  | strv (s : String)
deriving DecidableEq

def digitsOnly (l : List Char) : Bool := l.all Char.isDigit

def digitsVal (l : List Char) : Nat := l.foldl (fun acc c => acc * 10 + (c.toNat - 48)) 0

/-- JS `Number()` on a string, for the decimal fragment the endpoint can
meet: optional surrounding spaces, optional sign, integer and/or fractional
digits. Whitespace-only gives 0; anything else unparsable gives NaN
(`none`). -/
def parseNumber (s : String) : Option ℚ :=
  let t := ((s.toList.dropWhile (fun c => c == ' ')).reverse.dropWhile
      (fun c => c == ' ')).reverse
  match t with
  | [] => some 0
  | _ =>
    let sg : ℚ := if t.head? = some '-' then -1 else 1
    let t2 := if t.head? = some '-' ∨ t.head? = some '+' then t.tail else t
    match t2.splitOn '.' with
    | [ip] =>
        if ip ≠ [] ∧ digitsOnly ip then some (sg * (digitsVal ip : ℚ)) else none
    | [ip, fp] =>
        if (ip ≠ [] ∨ fp ≠ []) ∧ digitsOnly ip ∧ digitsOnly fp then
          some (sg * ((digitsVal ip : ℚ) + (digitsVal fp : ℚ) / ((10 : ℚ) ^ fp.length)))
        else none
    | _ => none

/-- JS `Number()` coercion; `none` is NaN. -/
def toNumber : JsValue → Option ℚ
  | JsValue.undef => none
  | JsValue.nullv => some 0
  | JsValue.boolean b => some (if b then 1 else 0)
  | JsValue.number q => some q
  | JsValue.nan => none
  | JsValue.strv s => parseNumber s

/-- JS falsiness of a number: NaN and 0 are falsy. -/
def numFalsy : Option ℚ → Bool
  | none => true
  | some q => q == 0

/-- JS `x <= 0` on a number: false for NaN. -/
def numLe0 : Option ℚ → Bool
  | none => false
  | some q => decide (q ≤ 0)

/-- JS `Number(x.toFixed(2))`: round to two decimals, ties to the larger
value. -/
def toFixed2 (q : ℚ) : ℚ := ((⌊q * 100 + 1 / 2⌋ : ℤ) : ℚ) / 100

def bmiCategory (bmi : ℚ) : String :=
  if bmi < 18.5 then "Underweight"
  else if bmi < 25 then "Normal"
  else if bmi < 30 then "Overweight"
  else "Obesity"

def bmiMessage (bmi : ℚ) : String :=
  if bmi < 18.5 then
    "Your BMI is below the normal range. Consider consulting a nutritionist or doctor."
  else if bmi < 25 then
    "Your BMI is in the normal range. Keep maintaining a healthy lifestyle."
  else if bmi < 30 then
    "Your BMI is slightly above the normal range. You may want to review diet and activity."
  else
    "Your BMI is in the obesity range. Please consider consulting a healthcare professional."

def bmiRanges : List (String × String) :=
  [("Underweight", "< 18.5"), ("Normal", "18.5 – 24.9"), ("Overweight", "25 – 29.9"),
   ("Obesity", "≥ 30")]

structure BmiBody where
  bmi : ℚ
  category : String
  message : String
  ranges : List (String × String)
deriving DecidableEq

/-- `POST /api/calc/bmi`. -/
def bmiHandler (heightCm weightKg : JsValue) : Response BmiBody :=
  let h := toNumber heightCm
  let w := toNumber weightKg
  if numFalsy h ∨ numFalsy w ∨ numLe0 h ∨ numLe0 w then
    Response.err 400 "heightCm and weightKg must be positive numbers" none
  else
    let hq := h.getD 0
    let wq := w.getD 0
    let heightM := hq / 100
    let bmi := wq / (heightM * heightM)
    Response.ok { bmi := toFixed2 bmi, category := bmiCategory bmi,
                  message := bmiMessage bmi, ranges := bmiRanges }

/-! ## Helper lemmas -/

theorem countUnlink_append (p : String) (a b : List Event) :
    countUnlink p (a ++ b) = countUnlink p a + countUnlink p b := by
  induction a with
  | nil => simp [countUnlink]
  | cons e rest ih =>
      cases e <;> simp [countUnlink, ih, Nat.add_assoc]

/-- `takeWhile (≠ .)` over a list whose non-dot prefix is followed by a dot. -/
theorem takeWhile_append_dot (l1 t : List Char) (h1 : ∀ c ∈ l1, c ≠ '.') :
    (l1 ++ '.' :: t).takeWhile (fun c => c != '.') = l1 := by
  induction l1 with
  | nil => simp [List.takeWhile]
  | cons c rest ih =>
      have hc : (c != '.') = true := by
        simpa using h1 c (by simp)
      simp only [List.cons_append, List.takeWhile_cons, hc]
      rw [ih (fun d hd => h1 d (by simp [hd]))]
      simp

/-- If `takeWhile (≠ .)` is shorter than the list, the list splits at a dot. -/
theorem takeWhile_dot_decomp : ∀ r : List Char,
    (r.takeWhile (fun c => c != '.')).length < r.length →
    r = r.takeWhile (fun c => c != '.') ++
        '.' :: r.drop ((r.takeWhile (fun c => c != '.')).length + 1)
  | [], h => by simp at h
  | c :: t, h => by
      by_cases hc : (c != '.') = true
      · have hc' := hc
        simp only [List.takeWhile_cons, hc] at h ⊢
        have ht := takeWhile_dot_decomp t (by simpa using h)
        simp only [List.length_cons, List.drop_succ_cons]
        exact congrArg (c :: ·) ht
      · have hcd : c = '.' := by
          simpa using hc
        simp only [List.takeWhile_cons, hc, if_neg]
        simp [hcd]

/-- `extname` of a name of the form `pre ++ "." ++ ext` with nonempty `pre`
and a nonempty dot-free `ext`. -/
theorem extname_concat (pre ext : List Char) (hpre : pre ≠ [])
    (hnd : ∀ c ∈ ext, c ≠ '.') :
    extname (String.mk (pre ++ '.' :: ext)) = String.mk ('.' :: ext) := by
  have hrev : (String.mk (pre ++ '.' :: ext)).toList.reverse =
      ext.reverse ++ '.' :: pre.reverse := by
    show (pre ++ '.' :: ext).reverse = ext.reverse ++ '.' :: pre.reverse
    rw [List.reverse_append, List.reverse_cons, List.append_assoc]
    simp
  simp only [extname, hrev, takeWhile_append_dot ext.reverse pre.reverse
    (fun c hc => hnd c (List.mem_reverse.mp hc))]
  have hlen : ¬ (ext.reverse ++ '.' :: pre.reverse).length ≤ ext.reverse.length + 1 := by
    have hp : pre.length ≠ 0 := fun hz => hpre (List.length_eq_zero.mp hz)
    simp only [List.length_append, List.length_cons, List.length_reverse]
    omega
  rw [if_neg hlen]
  simp

/-- `replaceFinalExt` on a name of the form `pre ++ "." ++ ext` with a
nonempty dot-free `ext` replaces that extension. -/
theorem replaceFinalExt_concat (pre ext : List Char) (fmt : String) (hext : ext ≠ [])
    (hnd : ∀ c ∈ ext, c ≠ '.') :
    replaceFinalExt (String.mk (pre ++ '.' :: ext)) fmt = String.mk pre ++ "." ++ fmt := by
  have hrev : (String.mk (pre ++ '.' :: ext)).toList.reverse =
      ext.reverse ++ '.' :: pre.reverse := by
    show (pre ++ '.' :: ext).reverse = ext.reverse ++ '.' :: pre.reverse
    rw [List.reverse_append, List.reverse_cons, List.append_assoc]
    simp
  simp only [replaceFinalExt, hrev, takeWhile_append_dot ext.reverse pre.reverse
    (fun c hc => hnd c (List.mem_reverse.mp hc))]
  have hcond : ext.reverse.length ≠ 0 ∧
      ext.reverse.length < (ext.reverse ++ '.' :: pre.reverse).length := by
    constructor
    · simpa using fun hz => hext (List.length_eq_zero.mp (by simpa using hz))
    · simp [List.length_append]
  rw [if_pos hcond]
  have hdrop : (ext.reverse ++ '.' :: pre.reverse).drop (ext.reverse.length + 1) =
      pre.reverse := by
    have : ext.reverse ++ '.' :: pre.reverse = (ext.reverse ++ ['.']) ++ pre.reverse := by
      simp
    rw [this]
    have hlen : ext.reverse.length + 1 = (ext.reverse ++ ['.']).length := by simp
    rw [hlen, List.drop_left]
  rw [hdrop]
  simp

/-- A list whose dot-free prefix is shorter than the whole (by at least two)
splits at the first dot with a nonempty remainder. -/
theorem dot_split (r : List Char)
    (hlt : (r.takeWhile (fun c => c != '.')).length + 1 < r.length) :
    ∃ tw rest, r = tw ++ '.' :: rest ∧ tw = r.takeWhile (fun c => c != '.') ∧ rest ≠ [] := by
  refine ⟨r.takeWhile (fun c => c != '.'),
    r.drop ((r.takeWhile (fun c => c != '.')).length + 1),
    takeWhile_dot_decomp r (by omega), rfl, ?_⟩
  intro hz
  have hdec := takeWhile_dot_decomp r (by omega)
  rw [hz] at hdec
  have hlen := congrArg List.length hdec
  simp only [List.length_append, List.length_cons, List.length_nil] at hlen
  omega

/-- A name accepted by `hasProperFinalExt` splits as a nonempty stem, a dot,
and a nonempty dot-free extension. -/
theorem hasProperFinalExt_decomp (s : String) (h : hasProperFinalExt s = true) :
    ∃ pre ext, s.toList = pre ++ '.' :: ext ∧ pre ≠ [] ∧ ext ≠ [] ∧ ∀ c ∈ ext, c ≠ '.' := by
  simp only [hasProperFinalExt, decide_eq_true_eq] at h
  obtain ⟨hne, hlt⟩ := h
  obtain ⟨tw, rest, hdec, htw, hrest⟩ := dot_split (s.toList.reverse) hlt
  refine ⟨rest.reverse, tw.reverse, ?_, ?_, ?_, ?_⟩
  · have hs : s.toList = (s.toList.reverse).reverse := by simp
    rw [hs, hdec, List.reverse_append, List.reverse_cons, List.append_assoc]
    simp
  · simpa using hrest
  · intro hz
    apply hne
    rw [← htw, (by simpa using congrArg List.reverse hz : tw = [])]
    rfl
  · intro c hc
    have hmem : c ∈ tw := List.mem_reverse.mp hc
    rw [htw] at hmem
    simpa using List.mem_takeWhile_imp hmem

/-- A name with a nonempty `extname` splits as a nonempty stem, a dot, and a
dot-free extension, and `extname` returns that extension. -/
theorem extname_nonempty_decomp (s : String) (h : extname s ≠ "") :
    ∃ pre ext, s.toList = pre ++ '.' :: ext ∧ pre ≠ [] ∧ (∀ c ∈ ext, c ≠ '.') ∧
      extname s = String.mk ('.' :: ext) := by
  simp only [extname] at h
  by_cases hcc : (s.toList.reverse).length ≤
      ((s.toList.reverse).takeWhile (fun c => c != '.')).length + 1
  · rw [if_pos hcc] at h
    exact absurd rfl h
  · obtain ⟨tw, rest, hdec, htw, hrest⟩ := dot_split (s.toList.reverse) (by omega)
    refine ⟨rest.reverse, tw.reverse, ?_, ?_, ?_, ?_⟩
    · have hs : s.toList = (s.toList.reverse).reverse := by simp
      rw [hs, hdec, List.reverse_append, List.reverse_cons, List.append_assoc]
      simp
    · simpa using hrest
    · intro c hc
      have hmem : c ∈ tw := List.mem_reverse.mp hc
      rw [htw] at hmem
      simpa using List.mem_takeWhile_imp hmem
    · simp only [extname]
      rw [if_neg hcc, htw]

/-- `replaceExtSuffix` fires when the name decomposes into a prefix and a
suffix whose lowering is exactly `src`. -/
theorem replaceExtSuffix_match (name src dst : String) (pre ext : List Char)
    (hdecomp : name.toList = pre ++ ext) (hlow : ext.map Char.toLower = src.toList) :
    replaceExtSuffix name src dst = String.mk pre ++ dst := by
  unfold replaceExtSuffix
  have hklen : src.toList.length = ext.length := by
    rw [← hlow]; simp
  have hnlen : name.toList.length = pre.length + ext.length := by
    rw [hdecomp]; simp
  have hsub : name.toList.length - src.toList.length = pre.length := by omega
  have hdrop : name.toList.drop (name.toList.length - src.toList.length) = ext := by
    rw [hsub, hdecomp, List.drop_left]
  have htake : name.toList.take (name.toList.length - src.toList.length) = pre := by
    rw [hsub, hdecomp, List.take_left]
  rw [if_pos ?hc]
  · rw [htake]
  case hc =>
    refine ⟨by omega, ?_⟩
    rw [hdrop, hlow]
    rfl

/-! ## BMI lemmas -/

theorem posNum_iff (x : Option ℚ) :
    (numFalsy x = false ∧ numLe0 x = false) ↔ ∃ q, x = some q ∧ 0 < q := by
  cases x with
  | none => simp [numFalsy, numLe0]
  | some q =>
      simp only [numFalsy, numLe0, beq_eq_false_iff_ne, ne_eq, decide_eq_false_iff_not,
        Option.some.injEq]
      constructor
      · rintro ⟨h1, h2⟩
        exact ⟨q, rfl, not_le.mp h2⟩
      · rintro ⟨q', hq', hpos⟩
        subst hq'
        exact ⟨ne_of_gt hpos, not_le.mpr hpos⟩

theorem bmiHandler_pos (h w : ℚ) (hh : 0 < h) (hw : 0 < w) :
    bmiHandler (JsValue.number h) (JsValue.number w) =
      Response.ok { bmi := toFixed2 (w / (h / 100 * (h / 100))),
                    category := bmiCategory (w / (h / 100 * (h / 100))),
                    message := bmiMessage (w / (h / 100 * (h / 100))),
                    ranges := bmiRanges } := by
  simp only [bmiHandler, toNumber]
  rw [if_neg]
  · simp [Option.getD]
  · simp only [numFalsy, numLe0]
    simp [beq_eq_false_iff_ne, ne_of_gt hh, ne_of_gt hw, not_le.mpr hh, not_le.mpr hw]

/-- C3: for positive numeric inputs the BMI endpoint computes
`weightKg / (heightCm/100)^2`, reports it rounded to two decimals (an
integer multiple of 1/100 within 1/200 of the raw value, ties up), and
categorizes with lower-closed thresholds: 18.5 is "Normal", 25 is
"Overweight", 30 is "Obesity"; 180 cm and 75 kg give 23.15 "Normal". -/
theorem C3_bmi_formula_and_boundaries :
    (∀ h w : ℚ, 0 < h → 0 < w →
      ∃ body, bmiHandler (JsValue.number h) (JsValue.number w) = Response.ok body ∧
        body.bmi = toFixed2 (w / (h / 100 * (h / 100))) ∧
        body.category = bmiCategory (w / (h / 100 * (h / 100)))) ∧
    (∀ q : ℚ, toFixed2 q * 100 = ((⌊q * 100 + 1 / 2⌋ : ℤ) : ℚ) ∧
      |toFixed2 q - q| ≤ 1 / 200) ∧
    bmiCategory (37 / 2) = "Normal" ∧ bmiCategory 25 = "Overweight" ∧
    bmiCategory 30 = "Obesity" ∧ bmiCategory (37 / 2 - 1 / 100) = "Underweight" ∧
    (∃ body, bmiHandler (JsValue.number 180) (JsValue.number 75) = Response.ok body ∧
      body.bmi = 2315 / 100 ∧ body.category = "Normal") := by
  refine ⟨?_, ?_, ?_, ?_, ?_, ?_, ?_⟩
  · intro h w hh hw
    exact ⟨_, bmiHandler_pos h w hh hw, rfl, rfl⟩
  · intro q
    constructor
    · unfold toFixed2
      field_simp
    · have h1 : ((⌊q * 100 + 1 / 2⌋ : ℤ) : ℚ) ≤ q * 100 + 1 / 2 := Int.floor_le _
      have h2 : q * 100 + 1 / 2 < (⌊q * 100 + 1 / 2⌋ : ℤ) + 1 := Int.lt_floor_add_one _
      rw [abs_le]
      unfold toFixed2
      constructor
      · linarith
      · linarith
  · norm_num [bmiCategory]
  · norm_num [bmiCategory]
  · norm_num [bmiCategory]
  · norm_num [bmiCategory]
  · refine ⟨_, bmiHandler_pos 180 75 (by norm_num) (by norm_num), ?_, ?_⟩
    · show toFixed2 (75 / (180 / 100 * (180 / 100))) = 2315 / 100
      have hf : ⌊(75 / (180 / 100 * (180 / 100)) * 100 + 1 / 2 : ℚ)⌋ = 2315 := by
        rw [Int.floor_eq_iff]
        constructor <;> norm_num
      unfold toFixed2
      rw [hf]
      norm_num
    · show bmiCategory (75 / (180 / 100 * (180 / 100))) = "Normal"
      norm_num [bmiCategory]

/-- Witness for C3 at heightCm 160, weightKg 50. -/
theorem C3_witness :
    ∃ body, bmiHandler (JsValue.number 160) (JsValue.number 50) = Response.ok body ∧
      body.bmi = toFixed2 (50 / (160 / 100 * (160 / 100))) ∧
      body.category = bmiCategory (50 / (160 / 100 * (160 / 100))) :=
  C3_bmi_formula_and_boundaries.1 160 50 (by norm_num) (by norm_num)

/-- C10: the BMI endpoint rejects with 400 exactly when the `Number`
coercion of either field is not a strictly positive number; numeric strings
and `true` are accepted, missing fields, zero, negatives and non-numeric
strings are rejected. -/
theorem C10_bmi_validation :
    (∀ hv wv : JsValue,
      bmiHandler hv wv = Response.err 400 "heightCm and weightKg must be positive numbers" none
        ↔ ¬ ∃ hq wq : ℚ, toNumber hv = some hq ∧ 0 < hq ∧ toNumber wv = some wq ∧ 0 < wq) ∧
    toNumber (JsValue.strv "180") = some 180 ∧
    toNumber (JsValue.boolean true) = some 1 ∧
    toNumber JsValue.undef = none ∧
    toNumber (JsValue.strv "abc") = none ∧
    (∃ body, bmiHandler (JsValue.strv "180") (JsValue.strv "75") = Response.ok body) ∧
    bmiHandler (JsValue.number 0) (JsValue.number 70) =
      Response.err 400 "heightCm and weightKg must be positive numbers" none ∧
    bmiHandler (JsValue.number (-5)) (JsValue.number 70) =
      Response.err 400 "heightCm and weightKg must be positive numbers" none ∧
    bmiHandler JsValue.undef (JsValue.number 70) =
      Response.err 400 "heightCm and weightKg must be positive numbers" none := by
  have h180 : toNumber (JsValue.strv "180") = some 180 := by
    rw [show toNumber (JsValue.strv "180") = some ((1 : ℚ) * ((180 : Nat) : ℚ)) from rfl]
    norm_num
  have h75 : toNumber (JsValue.strv "75") = some 75 := by
    rw [show toNumber (JsValue.strv "75") = some ((1 : ℚ) * ((75 : Nat) : ℚ)) from rfl]
    norm_num
  refine ⟨?_, h180, rfl, rfl, rfl, ?_, ?_, ?_, ?_⟩
  case refine_2 =>
    refine ⟨⟨toFixed2 (75 / ((180 : ℚ) / 100 * (180 / 100))),
      bmiCategory (75 / ((180 : ℚ) / 100 * (180 / 100))),
      bmiMessage (75 / ((180 : ℚ) / 100 * (180 / 100))), bmiRanges⟩, ?_⟩
    simp only [bmiHandler, h180, h75]
    rw [if_neg]
    · simp
    · norm_num [numFalsy, numLe0]
  case refine_3 => simp [bmiHandler, toNumber, numFalsy]
  case refine_4 => norm_num [bmiHandler, toNumber, numFalsy, numLe0]
  case refine_5 => simp [bmiHandler, toNumber, numFalsy]
  intro hv wv
  constructor
  · intro heq hpos
    obtain ⟨hq, wq, hhv, hhp, hwv, hwp⟩ := hpos
    have hH : numFalsy (toNumber hv) = false ∧ numLe0 (toNumber hv) = false := by
      rw [posNum_iff]
      exact ⟨hq, hhv, hhp⟩
    have hW : numFalsy (toNumber wv) = false ∧ numLe0 (toNumber wv) = false := by
      rw [posNum_iff]
      exact ⟨wq, hwv, hwp⟩
    simp only [bmiHandler] at heq
    rw [if_neg] at heq
    · exact absurd heq (by simp)
    · simp [hH.1, hH.2, hW.1, hW.2]
  · intro hne
    by_cases hc : (numFalsy (toNumber hv) = true ∨ numFalsy (toNumber wv) = true ∨
        numLe0 (toNumber hv) = true ∨ numLe0 (toNumber wv) = true)
    · simp only [bmiHandler]
      rw [if_pos]
      simpa using hc
    · exfalso
      apply hne
      push_neg at hc
      obtain ⟨h1, h2, h3, h4⟩ := hc
      obtain ⟨hq, hhv, hhp⟩ := (posNum_iff (toNumber hv)).mp
        ⟨Bool.not_eq_true _ ▸ h1, Bool.not_eq_true _ ▸ h3⟩
      obtain ⟨wq, hwv, hwp⟩ := (posNum_iff (toNumber wv)).mp
        ⟨Bool.not_eq_true _ ▸ h2, Bool.not_eq_true _ ▸ h4⟩
      exact ⟨hq, wq, hhv, hhp, hwv, hwp⟩

/-! ## Audio handler lemmas -/

theorem audioConvertHandler_accepted (f : UploadedFile) (tf br : Option String)
    (uuid : String) (run : List String → ProcOutcome)
    (fsRead : String → Except String (List Nat))
    (hfmt : jsLower (tf.getD "mp3") ∈ allowedOutputFormats)
    (hmime : f.mimetype ∈ allowedInputTypes) :
    audioConvertHandler (some f) tf br uuid run fsRead =
      ((audioTry f (jsLower (tf.getD "mp3")) (br.getD "192k")
          (audioOutputPath uuid (jsLower (tf.getD "mp3"))) run fsRead).1,
       (audioTry f (jsLower (tf.getD "mp3")) (br.getD "192k")
          (audioOutputPath uuid (jsLower (tf.getD "mp3"))) run fsRead).2 ++
        [Event.unlink f.path,
         Event.unlink (audioOutputPath uuid (jsLower (tf.getD "mp3")))]) := by
  simp only [audioConvertHandler]
  rw [if_neg (not_not_intro hfmt), if_neg (not_not_intro hmime)]

theorem audioTry_exit0 (f : UploadedFile) (sf brv out : String)
    (run : List String → ProcOutcome) (fsRead : String → Except String (List Nat))
    (stderrTxt : String) (buf : List Nat)
    (hrun : run (audioArgs f.path out sf brv) = ProcOutcome.exited 0 stderrTxt)
    (hread : fsRead out = Except.ok buf) :
    audioTry f sf brv out run fsRead =
      (Response.ok (fileToDataUrlResponse buf (audioMime sf)
          (replaceFinalExt f.originalname sf)
          [("targetFormat", MetaVal.s sf), ("bitrate", MetaVal.s brv),
           ("size", MetaVal.n buf.length)]),
       [Event.spawn (audioArgs f.path out sf brv), Event.readOut out]) := by
  simp only [audioTry, hrun, hread]
  simp

theorem audioTry_exitNonzero (f : UploadedFile) (sf brv out : String)
    (run : List String → ProcOutcome) (fsRead : String → Except String (List Nat))
    (code : Int) (stderrTxt : String) (hc : code ≠ 0)
    (hrun : run (audioArgs f.path out sf brv) = ProcOutcome.exited code stderrTxt) :
    audioTry f sf brv out run fsRead =
      (Response.err 500 "Audio conversion failed"
          (some ("ffmpeg exited with code " ++ toString code ++ ": " ++ stderrTxt)),
       [Event.spawn (audioArgs f.path out sf brv)]) := by
  simp only [audioTry, hrun]
  rw [if_neg hc]

theorem audioTry_spawnFail (f : UploadedFile) (sf brv out : String)
    (run : List String → ProcOutcome) (fsRead : String → Except String (List Nat))
    (m : String) (hrun : run (audioArgs f.path out sf brv) = ProcOutcome.spawnFail m) :
    audioTry f sf brv out run fsRead =
      (Response.err 500 "Audio conversion failed" (some m),
       [Event.spawn (audioArgs f.path out sf brv)]) := by
  simp only [audioTry, hrun]

theorem audioTry_trace_head (f : UploadedFile) (sf brv out : String)
    (run : List String → ProcOutcome) (fsRead : String → Except String (List Nat)) :
    ∃ rest, (audioTry f sf brv out run fsRead).2 =
      Event.spawn (audioArgs f.path out sf brv) :: rest := by
  cases hrun : run (audioArgs f.path out sf brv) with
  | spawnFail m =>
      rw [audioTry_spawnFail f sf brv out run fsRead m hrun]
      exact ⟨[], rfl⟩
  | exited code stderrTxt =>
      by_cases hc : code = 0
      · subst hc
        cases hread : fsRead out with
        | error e =>
            refine ⟨[Event.readOut out], ?_⟩
            simp only [audioTry, hrun, hread]
            simp
        | ok buf =>
            rw [audioTry_exit0 f sf brv out run fsRead stderrTxt buf hrun hread]
            exact ⟨[Event.readOut out], rfl⟩
      · rw [audioTry_exitNonzero f sf brv out run fsRead code stderrTxt hc hrun]
        exact ⟨[], rfl⟩

/-! ## Audio claims -/

/-- C2: after an accepted audio request, exit code 0 yields a success
envelope whose `size` equals the byte length of the buffer read from the
allocated output path; a non-zero exit yields a 500 error whose details are
the exit code followed by the full stderr text; a dispatch failure yields a
500 error carrying the underlying error message. -/
theorem C2_audio_process_outcomes :
    ∀ (f : UploadedFile) (tf br : Option String) (uuid : String)
      (run : List String → ProcOutcome) (fsRead : String → Except String (List Nat)),
      jsLower (tf.getD "mp3") ∈ allowedOutputFormats →
      f.mimetype ∈ allowedInputTypes →
      ((∀ stderrTxt buf,
        run (audioArgs f.path (audioOutputPath uuid (jsLower (tf.getD "mp3")))
            (jsLower (tf.getD "mp3")) (br.getD "192k")) = ProcOutcome.exited 0 stderrTxt →
        fsRead (audioOutputPath uuid (jsLower (tf.getD "mp3"))) = Except.ok buf →
        ∃ env, (audioConvertHandler (some f) tf br uuid run fsRead).1 = Response.ok env ∧
          env.extra.lookup "size" = some (MetaVal.n buf.length)) ∧
      (∀ (code : Int) stderrTxt, code ≠ 0 →
        run (audioArgs f.path (audioOutputPath uuid (jsLower (tf.getD "mp3")))
            (jsLower (tf.getD "mp3")) (br.getD "192k")) = ProcOutcome.exited code stderrTxt →
        (audioConvertHandler (some f) tf br uuid run fsRead).1 =
          Response.err 500 "Audio conversion failed"
            (some ("ffmpeg exited with code " ++ toString code ++ ": " ++ stderrTxt))) ∧
      (∀ m, run (audioArgs f.path (audioOutputPath uuid (jsLower (tf.getD "mp3")))
            (jsLower (tf.getD "mp3")) (br.getD "192k")) = ProcOutcome.spawnFail m →
        (audioConvertHandler (some f) tf br uuid run fsRead).1 =
          Response.err 500 "Audio conversion failed" (some m))) := by
  intro f tf br uuid run fsRead hfmt hmime
  rw [audioConvertHandler_accepted f tf br uuid run fsRead hfmt hmime]
  refine ⟨?_, ?_, ?_⟩
  · intro stderrTxt buf hrun hread
    rw [audioTry_exit0 f _ _ _ run fsRead stderrTxt buf hrun hread]
    refine ⟨_, rfl, ?_⟩
    rfl
  · intro code stderrTxt hc hrun
    rw [audioTry_exitNonzero f _ _ _ run fsRead code stderrTxt hc hrun]
  · intro m hrun
    rw [audioTry_spawnFail f _ _ _ run fsRead m hrun]

/-- Witness for C2: an mp3 conversion that exits 0 and reads three bytes. -/
theorem C2_witness :
    ∃ env, (audioConvertHandler (some ⟨"p2", "song.flac", "audio/flac", 9⟩)
        (some "mp3") none "u2"
        (fun _ => ProcOutcome.exited 0 "") (fun _ => Except.ok [1, 2, 3])).1 =
      Response.ok env ∧
      env.extra.lookup "size" = some (MetaVal.n ([1, 2, 3] : List Nat).length) :=
  (C2_audio_process_outcomes ⟨"p2", "song.flac", "audio/flac", 9⟩ (some "mp3") none "u2"
    (fun _ => ProcOutcome.exited 0 "") (fun _ => Except.ok [1, 2, 3])
    (by decide) (by decide)).1 "" [1, 2, 3] rfl rfl

/-- C5 counterexample: a request whose MIME type is outside the input
allow-list but whose target format is also invalid is answered with
"Invalid target format", not "Unsupported input audio format", because the
format check runs first. -/
theorem C5_counterexample :
    ("text/plain" ∉ allowedInputTypes) ∧
    (audioConvertHandler (some ⟨"p5", "a.flac", "text/plain", 4⟩) (some "flac") none "u5"
        (fun _ => ProcOutcome.exited 0 "") (fun _ => Except.ok [])).1 =
      Response.err 400 "Invalid target format" none ∧
    (audioConvertHandler (some ⟨"p5", "a.flac", "text/plain", 4⟩) (some "flac") none "u5"
        (fun _ => ProcOutcome.exited 0 "") (fun _ => Except.ok [])).1 ≠
      Response.err 400 "Unsupported input audio format" none := by
  refine ⟨by decide, rfl, by decide⟩

/-- C5 amended: a target format outside `mp3`/`aac`/`wav`/`ogg` (after
lowercasing) is rejected 400 "Invalid target format"; a disallowed input
MIME type with a *valid* target format is rejected 400 "Unsupported input
audio format"; in both cases ffmpeg is never spawned; "flac" is not an
allowed output format. -/
theorem C5_audio_validation_amended :
    (∀ (f : UploadedFile) (tf br : Option String) (uuid : String)
      (run : List String → ProcOutcome) (fsRead : String → Except String (List Nat)),
      jsLower (tf.getD "mp3") ∉ allowedOutputFormats →
      (audioConvertHandler (some f) tf br uuid run fsRead).1 =
        Response.err 400 "Invalid target format" none ∧
      hasSpawnEvent (audioConvertHandler (some f) tf br uuid run fsRead).2 = false) ∧
    (∀ (f : UploadedFile) (tf br : Option String) (uuid : String)
      (run : List String → ProcOutcome) (fsRead : String → Except String (List Nat)),
      jsLower (tf.getD "mp3") ∈ allowedOutputFormats →
      f.mimetype ∉ allowedInputTypes →
      (audioConvertHandler (some f) tf br uuid run fsRead).1 =
        Response.err 400 "Unsupported input audio format" none ∧
      hasSpawnEvent (audioConvertHandler (some f) tf br uuid run fsRead).2 = false) ∧
    jsLower "flac" ∉ allowedOutputFormats := by
  refine ⟨?_, ?_, by decide⟩
  · intro f tf br uuid run fsRead hfmt
    simp only [audioConvertHandler]
    rw [if_pos hfmt]
    exact ⟨rfl, rfl⟩
  · intro f tf br uuid run fsRead hfmt hmime
    simp only [audioConvertHandler]
    rw [if_neg (not_not_intro hfmt), if_pos hmime]
    exact ⟨rfl, rfl⟩

/-- Witness for C5 at a concrete "flac" request. -/
theorem C5_witness :
    (audioConvertHandler (some ⟨"pw", "a.flac", "audio/flac", 4⟩) (some "flac") none "uw"
        (fun _ => ProcOutcome.exited 0 "") (fun _ => Except.ok [])).1 =
      Response.err 400 "Invalid target format" none ∧
    hasSpawnEvent (audioConvertHandler (some ⟨"pw", "a.flac", "audio/flac", 4⟩)
        (some "flac") none "uw"
        (fun _ => ProcOutcome.exited 0 "") (fun _ => Except.ok [])).2 = false :=
  C5_audio_validation_amended.1 ⟨"pw", "a.flac", "audio/flac", 4⟩ (some "flac") none "uw"
    (fun _ => ProcOutcome.exited 0 "") (fun _ => Except.ok []) (by decide)

/-- C6: the ffmpeg argument list is `-y -i input -vn`, then the
format-specific codec arguments — ending in `-b:a bitrate` (verbatim,
default "192k") for mp3/aac/ogg, `-codec:a pcm_s16le` with no bitrate for
wav — then the output path; every accepted request spawns exactly this
list. -/
theorem C6_ffmpeg_args :
    (∀ ip op brv, audioArgs ip op "mp3" brv =
      ["-y", "-i", ip, "-vn", "-codec:a", "libmp3lame", "-b:a", brv, op]) ∧
    (∀ ip op brv, audioArgs ip op "aac" brv =
      ["-y", "-i", ip, "-vn", "-codec:a", "aac", "-b:a", brv, op]) ∧
    (∀ ip op brv, audioArgs ip op "wav" brv =
      ["-y", "-i", ip, "-vn", "-codec:a", "pcm_s16le", op]) ∧
    (∀ ip op brv, audioArgs ip op "ogg" brv =
      ["-y", "-i", ip, "-vn", "-codec:a", "libvorbis", "-b:a", brv, op]) ∧
    ((none : Option String).getD "192k" = "192k") ∧
    (∀ (f : UploadedFile) (tf br : Option String) (uuid : String)
      (run : List String → ProcOutcome) (fsRead : String → Except String (List Nat)),
      jsLower (tf.getD "mp3") ∈ allowedOutputFormats →
      f.mimetype ∈ allowedInputTypes →
      ∃ rest, (audioConvertHandler (some f) tf br uuid run fsRead).2 =
        Event.spawn (audioArgs f.path (audioOutputPath uuid (jsLower (tf.getD "mp3")))
          (jsLower (tf.getD "mp3")) (br.getD "192k")) :: rest) := by
  refine ⟨fun ip op brv => rfl, fun ip op brv => rfl, fun ip op brv => rfl,
    fun ip op brv => rfl, rfl, ?_⟩
  intro f tf br uuid run fsRead hfmt hmime
  rw [audioConvertHandler_accepted f tf br uuid run fsRead hfmt hmime]
  obtain ⟨rest, hrest⟩ := audioTry_trace_head f (jsLower (tf.getD "mp3")) (br.getD "192k")
    (audioOutputPath uuid (jsLower (tf.getD "mp3"))) run fsRead
  refine ⟨rest ++ [Event.unlink f.path,
    Event.unlink (audioOutputPath uuid (jsLower (tf.getD "mp3")))], ?_⟩
  rw [hrest]
  simp

/-- Witness for C6: concrete accepted wav request spawns the pcm_s16le
argument list. -/
theorem C6_witness :
    ∃ rest, (audioConvertHandler (some ⟨"p6", "a.wav", "audio/wav", 4⟩)
        (some "wav") none "u6"
        (fun _ => ProcOutcome.exited 0 "") (fun _ => Except.ok [])).2 =
      Event.spawn (audioArgs "p6" (audioOutputPath "u6" (jsLower "wav"))
        (jsLower "wav") "192k") :: rest :=
  C6_ffmpeg_args.2.2.2.2.2 ⟨"p6", "a.wav", "audio/wav", 4⟩ (some "wav") none "u6"
    (fun _ => ProcOutcome.exited 0 "") (fun _ => Except.ok []) (by decide) (by decide)

/-- C9: an absent targetFormat field behaves exactly like "mp3"; the field
is lowercased before validation so "MP3" is accepted and equivalent to
"mp3"; the lowercased format drives the output path, the response MIME
type and the echoed targetFormat metadata. -/
theorem C9_target_format_normalization :
    (∀ (f : UploadedFile) (br : Option String) (uuid : String)
      (run : List String → ProcOutcome) (fsRead : String → Except String (List Nat)),
      audioConvertHandler (some f) none br uuid run fsRead =
        audioConvertHandler (some f) (some "mp3") br uuid run fsRead) ∧
    jsLower "MP3" = "mp3" ∧
    (∀ (f : UploadedFile) (br : Option String) (uuid : String)
      (run : List String → ProcOutcome) (fsRead : String → Except String (List Nat)),
      audioConvertHandler (some f) (some "MP3") br uuid run fsRead =
        audioConvertHandler (some f) (some "mp3") br uuid run fsRead) ∧
    (∀ (f : UploadedFile) (tf br : Option String) (uuid : String)
      (run : List String → ProcOutcome) (fsRead : String → Except String (List Nat))
      (stderrTxt : String) (buf : List Nat),
      jsLower (tf.getD "mp3") ∈ allowedOutputFormats →
      f.mimetype ∈ allowedInputTypes →
      run (audioArgs f.path (audioOutputPath uuid (jsLower (tf.getD "mp3")))
          (jsLower (tf.getD "mp3")) (br.getD "192k")) = ProcOutcome.exited 0 stderrTxt →
      fsRead (audioOutputPath uuid (jsLower (tf.getD "mp3"))) = Except.ok buf →
      ∃ env, (audioConvertHandler (some f) tf br uuid run fsRead).1 = Response.ok env ∧
        env.mimeType = audioMime (jsLower (tf.getD "mp3")) ∧
        env.extra.lookup "targetFormat" = some (MetaVal.s (jsLower (tf.getD "mp3")))) ∧
    (∀ uuid sf, audioOutputPath uuid sf = uploadDir ++ "/" ++ uuid ++ "." ++ sf) := by
  refine ⟨fun f br uuid run fsRead => rfl, rfl, fun f br uuid run fsRead => rfl, ?_,
    fun uuid sf => rfl⟩
  intro f tf br uuid run fsRead stderrTxt buf hfmt hmime hrun hread
  rw [audioConvertHandler_accepted f tf br uuid run fsRead hfmt hmime]
  rw [audioTry_exit0 f _ _ _ run fsRead stderrTxt buf hrun hread]
  exact ⟨_, rfl, rfl, rfl⟩

/-- Witness for C9: an uppercase "MP3" request with exit 0. -/
theorem C9_witness :
    ∃ env, (audioConvertHandler (some ⟨"p9", "a.flac", "audio/flac", 4⟩)
        (some "MP3") none "u9"
        (fun _ => ProcOutcome.exited 0 "ok") (fun _ => Except.ok [7])).1 =
      Response.ok env ∧
      env.mimeType = audioMime (jsLower ((some "MP3").getD "mp3")) ∧
      env.extra.lookup "targetFormat" =
        some (MetaVal.s (jsLower ((some "MP3").getD "mp3"))) :=
  C9_target_format_normalization.2.2.2.1 ⟨"p9", "a.flac", "audio/flac", 4⟩ (some "MP3") none
    "u9" (fun _ => ProcOutcome.exited 0 "ok") (fun _ => Except.ok [7]) "ok" [7]
    (by decide) (by decide) rfl rfl

/-! ## Cleanup claims -/

theorem countUnlink_audioTry (p : String) (f : UploadedFile) (sf brv out : String)
    (run : List String → ProcOutcome) (fsRead : String → Except String (List Nat)) :
    countUnlink p (audioTry f sf brv out run fsRead).2 = 0 := by
  cases hrun : run (audioArgs f.path out sf brv) with
  | spawnFail m => simp [audioTry, hrun, countUnlink]
  | exited code stderrTxt =>
      by_cases hc : code = 0
      · subst hc
        cases hread : fsRead out with
        | error e => simp [audioTry, hrun, hread, countUnlink]
        | ok buf => simp [audioTry, hrun, hread, countUnlink]
      · simp [audioTry, hrun, hc, countUnlink]

/-- C1 counterexample: a docx-to-pdf request rejected for a wrong extension
attempts to remove its staged upload twice — once at the rejection and once
in the finally block — not exactly once. -/
theorem C1_counterexample :
    countUnlink "p0" ((docxToPdfHandler (some ⟨"p0", "notes.txt", "text/plain", 10⟩)
        (fun _ => Except.ok []) (fun _ => Except.ok [])).2) = 2 ∧
    countUnlink "p0" ((docxToPdfHandler (some ⟨"p0", "notes.txt", "text/plain", 10⟩)
        (fun _ => Except.ok []) (fun _ => Except.ok [])).2) ≠ 1 := by
  exact ⟨rfl, by decide⟩

/-- C1 amended: every staged upload gets at least one removal attempt; it is
exactly one everywhere except the extension/MIME validation-failure branches
of the document and image endpoints, which attempt removal twice; the audio
endpoint removes the staged input exactly once on every path and, once
allocated, the output path exactly once — on the success path the trace is
spawn, read, unlink input, unlink output, so the output removal follows the
read. -/
theorem C1_cleanup_amended :
    (∀ (f : UploadedFile) (fsRead : String → Except String (List Nat))
      (convert : List Nat → Except String (List Nat)),
      countUnlink f.path (docxToPdfHandler (some f) fsRead convert).2 =
        if jsLower (extname f.originalname) ≠ ".docx" then 2 else 1) ∧
    (∀ (f : UploadedFile) (fsRead : String → Except String (List Nat))
      (convert : List Nat → Except String (List Nat)),
      countUnlink f.path (pdfToDocxHandler (some f) fsRead convert).2 =
        if jsLower (extname f.originalname) ≠ ".pdf" then 2 else 1) ∧
    (∀ (f : UploadedFile) (uuid : String)
      (sharpJpeg70 : String → Except String (List Nat)),
      countUnlink f.path (imageCompressHandler (some f) uuid sharpJpeg70).2 =
        if f.mimetype ∉ imageAllowedMimes then 2 else 1) ∧
    (∀ (f : UploadedFile) (tf br : Option String) (uuid : String)
      (run : List String → ProcOutcome) (fsRead : String → Except String (List Nat)),
      f.path ≠ audioOutputPath uuid (jsLower (tf.getD "mp3")) →
      countUnlink f.path (audioConvertHandler (some f) tf br uuid run fsRead).2 = 1) ∧
    (∀ (f : UploadedFile) (tf br : Option String) (uuid : String)
      (run : List String → ProcOutcome) (fsRead : String → Except String (List Nat)),
      jsLower (tf.getD "mp3") ∈ allowedOutputFormats →
      f.mimetype ∈ allowedInputTypes →
      f.path ≠ audioOutputPath uuid (jsLower (tf.getD "mp3")) →
      countUnlink (audioOutputPath uuid (jsLower (tf.getD "mp3")))
        (audioConvertHandler (some f) tf br uuid run fsRead).2 = 1) ∧
    (∀ (f : UploadedFile) (tf br : Option String) (uuid : String)
      (run : List String → ProcOutcome) (fsRead : String → Except String (List Nat))
      (stderrTxt : String) (buf : List Nat),
      jsLower (tf.getD "mp3") ∈ allowedOutputFormats →
      f.mimetype ∈ allowedInputTypes →
      run (audioArgs f.path (audioOutputPath uuid (jsLower (tf.getD "mp3")))
          (jsLower (tf.getD "mp3")) (br.getD "192k")) = ProcOutcome.exited 0 stderrTxt →
      fsRead (audioOutputPath uuid (jsLower (tf.getD "mp3"))) = Except.ok buf →
      (audioConvertHandler (some f) tf br uuid run fsRead).2 =
        [Event.spawn (audioArgs f.path (audioOutputPath uuid (jsLower (tf.getD "mp3")))
            (jsLower (tf.getD "mp3")) (br.getD "192k")),
         Event.readOut (audioOutputPath uuid (jsLower (tf.getD "mp3"))),
         Event.unlink f.path,
         Event.unlink (audioOutputPath uuid (jsLower (tf.getD "mp3")))]) := by
  refine ⟨?_, ?_, ?_, ?_, ?_, ?_⟩
  · intro f fsRead convert
    simp only [docxToPdfHandler]
    rw [countUnlink_append]
    by_cases hext : jsLower (extname f.originalname) ≠ ".docx"
    · rw [if_pos hext]
      simp only [docxToPdfTry]
      rw [if_pos hext]
      simp [countUnlink]
    · rw [if_neg hext]
      simp only [docxToPdfTry]
      rw [if_neg hext]
      cases hr : fsRead f.path with
      | error e => simp [countUnlink]
      | ok docxBuf =>
          cases hcv : convert docxBuf with
          | error e => simp [hcv, countUnlink]
          | ok pdfBuf => simp [hcv, countUnlink]
  · intro f fsRead convert
    simp only [pdfToDocxHandler]
    rw [countUnlink_append]
    by_cases hext : jsLower (extname f.originalname) ≠ ".pdf"
    · rw [if_pos hext]
      simp only [pdfToDocxTry]
      rw [if_pos hext]
      simp [countUnlink]
    · rw [if_neg hext]
      simp only [pdfToDocxTry]
      rw [if_neg hext]
      cases hr : fsRead f.path with
      | error e => simp [countUnlink]
      | ok pdfBuf =>
          cases hcv : convert pdfBuf with
          | error e => simp [hcv, countUnlink]
          | ok docxBuf => simp [hcv, countUnlink]
  · intro f uuid sharpJpeg70
    simp only [imageCompressHandler]
    rw [countUnlink_append]
    by_cases hmime : f.mimetype ∉ imageAllowedMimes
    · rw [if_pos hmime]
      simp only [imageCompressTry]
      rw [if_pos hmime]
      simp [countUnlink]
    · rw [if_neg hmime]
      simp only [imageCompressTry]
      rw [if_neg hmime]
      cases hs : sharpJpeg70 f.path with
      | error e => simp [countUnlink]
      | ok buf => simp [countUnlink]
  · intro f tf br uuid run fsRead hne
    simp only [audioConvertHandler]
    by_cases h1 : jsLower (tf.getD "mp3") ∉ allowedOutputFormats
    · rw [if_pos h1]
      simp [countUnlink]
    · rw [if_neg h1]
      by_cases h2 : f.mimetype ∉ allowedInputTypes
      · rw [if_pos h2]
        simp [countUnlink]
      · rw [if_neg h2]
        rw [countUnlink_append, countUnlink_audioTry]
        simp [countUnlink, Ne.symm hne]
  · intro f tf br uuid run fsRead hfmt hmime hne
    rw [audioConvertHandler_accepted f tf br uuid run fsRead hfmt hmime]
    rw [countUnlink_append, countUnlink_audioTry]
    simp [countUnlink, hne]
  · intro f tf br uuid run fsRead stderrTxt buf hfmt hmime hrun hread
    rw [audioConvertHandler_accepted f tf br uuid run fsRead hfmt hmime]
    rw [audioTry_exit0 f _ _ _ run fsRead stderrTxt buf hrun hread]
    rfl

/-- Witness for C1 (amended): an accepted audio request removes its staged
input exactly once. -/
theorem C1_witness :
    countUnlink "pa" ((audioConvertHandler (some ⟨"pa", "a.flac", "audio/flac", 2⟩)
        (some "mp3") none "ua"
        (fun _ => ProcOutcome.exited 0 "") (fun _ => Except.ok [])).2) = 1 :=
  C1_cleanup_amended.2.2.2.1 ⟨"pa", "a.flac", "audio/flac", 2⟩ (some "mp3") none "ua"
    (fun _ => ProcOutcome.exited 0 "") (fun _ => Except.ok []) (by decide)

/-! ## Image and document claims -/

/-- C7: for an accepted image request the reported compressedSize is the
byte length of the encoded buffer, the dataUrl payload decodes back to a
buffer of exactly that length, and compressionRatio is compressedSize
divided by originalSize (the upload's byte size). -/
theorem C7_image_size_and_ratio :
    ∀ (f : UploadedFile) (uuid : String)
      (sharpJpeg70 : String → Except String (List Nat)) (buf : List Nat),
      f.mimetype ∈ imageAllowedMimes →
      sharpJpeg70 f.path = Except.ok buf →
      (∀ x ∈ buf, x < 256) →
      0 < f.size →
      ∃ env, (imageCompressHandler (some f) uuid sharpJpeg70).1 = Response.ok env ∧
        env.extra.lookup "originalSize" = some (MetaVal.n f.size) ∧
        env.extra.lookup "compressedSize" = some (MetaVal.n buf.length) ∧
        env.extra.lookup "compressionRatio" =
          some (MetaVal.q ((buf.length : ℚ) / (f.size : ℚ))) ∧
        env.dataUrl = "data:" ++ "image/jpeg" ++ ";base64," ++ b64Encode buf ∧
        b64Decode (b64Encode buf) = some buf := by
  intro f uuid sharpJpeg70 buf hmime hsharp hbytes hsize
  simp only [imageCompressHandler, imageCompressTry]
  rw [if_neg (not_not_intro hmime)]
  simp only [hsharp]
  exact ⟨_, rfl, rfl, rfl, rfl, rfl, b64_roundtrip buf hbytes⟩

/-- Witness for C7 at a two-byte png upload. -/
theorem C7_witness :
    ∃ env, (imageCompressHandler (some ⟨"pi", "img.png", "image/png", 4⟩) "ui"
        (fun _ => Except.ok [10, 200])).1 = Response.ok env ∧
      env.extra.lookup "originalSize" = some (MetaVal.n 4) ∧
      env.extra.lookup "compressedSize" = some (MetaVal.n ([10, 200] : List Nat).length) ∧
      env.extra.lookup "compressionRatio" =
        some (MetaVal.q ((([10, 200] : List Nat).length : ℚ) / ((4 : Nat) : ℚ))) ∧
      env.dataUrl = "data:" ++ "image/jpeg" ++ ";base64," ++ b64Encode [10, 200] ∧
      b64Decode (b64Encode [10, 200]) = some [10, 200] :=
  C7_image_size_and_ratio ⟨"pi", "img.png", "image/png", 4⟩ "ui"
    (fun _ => Except.ok [10, 200]) [10, 200] (by decide) rfl (by decide) (by decide)

/-- C8: a docx-to-pdf request whose upload extension is not `.docx`
case-insensitively is answered 400 "Only .docx files are allowed" without
invoking the converter; on an accepted upload the success fileName is the
original name with its `.docx` suffix replaced by `.pdf`. -/
theorem C8_docx_validation_and_name :
    (∀ (f : UploadedFile) (fsRead : String → Except String (List Nat))
      (convert : List Nat → Except String (List Nat)),
      jsLower (extname f.originalname) ≠ ".docx" →
      (docxToPdfHandler (some f) fsRead convert).1 =
        Response.err 400 "Only .docx files are allowed" none ∧
      Event.convertDoc ∉ (docxToPdfHandler (some f) fsRead convert).2) ∧
    (∀ (f : UploadedFile) (fsRead : String → Except String (List Nat))
      (convert : List Nat → Except String (List Nat)) (docxBuf pdfBuf : List Nat),
      fsRead f.path = Except.ok docxBuf →
      convert docxBuf = Except.ok pdfBuf →
      jsLower (extname f.originalname) = ".docx" →
      ∃ env pre ext, (docxToPdfHandler (some f) fsRead convert).1 = Response.ok env ∧
        f.originalname.toList = pre ++ '.' :: ext ∧
        jsLower (String.mk ('.' :: ext)) = ".docx" ∧
        env.fileName = String.mk pre ++ ".pdf") := by
  constructor
  · intro f fsRead convert hext
    simp only [docxToPdfHandler, docxToPdfTry]
    rw [if_pos hext]
    refine ⟨rfl, ?_⟩
    simp
  · intro f fsRead convert docxBuf pdfBuf hr hcv hlow
    have hne : extname f.originalname ≠ "" := by
      intro hz
      rw [hz] at hlow
      exact absurd hlow (by decide)
    obtain ⟨pre, ext, hdecomp, hpre, hnd, hext_eq⟩ :=
      extname_nonempty_decomp f.originalname hne
    have hlow2 : jsLower (String.mk ('.' :: ext)) = ".docx" := by
      rw [← hext_eq]
      exact hlow
    have hmap : ('.' :: ext).map Char.toLower = ".docx".toList := by
      have := congrArg String.toList hlow2
      simpa [jsLower] using this
    refine ⟨fileToDataUrlResponse pdfBuf "application/pdf"
      (replaceExtSuffix f.originalname ".docx" ".pdf") [], pre, ext, ?_, hdecomp, hlow2, ?_⟩
    · simp only [docxToPdfHandler, docxToPdfTry]
      rw [if_neg (not_not_intro hlow)]
      simp only [hr, hcv]
    · show replaceExtSuffix f.originalname ".docx" ".pdf" = String.mk pre ++ ".pdf"
      exact replaceExtSuffix_match f.originalname ".docx" ".pdf" pre ('.' :: ext)
        hdecomp hmap

/-- Witness for C8: "Report.DOCX" converts, with fileName "Report.pdf". -/
theorem C8_witness :
    ∃ env pre ext,
      (docxToPdfHandler (some ⟨"p8", "Report.DOCX", "m", 7⟩)
          (fun _ => Except.ok [5]) (fun _ => Except.ok [9])).1 = Response.ok env ∧
      ("Report.DOCX" : String).toList = pre ++ '.' :: ext ∧
      jsLower (String.mk ('.' :: ext)) = ".docx" ∧
      env.fileName = String.mk pre ++ ".pdf" :=
  C8_docx_validation_and_name.2 ⟨"p8", "Report.DOCX", "m", 7⟩
    (fun _ => Except.ok [5]) (fun _ => Except.ok [9]) [5] [9] rfl rfl (by decide)

/-! ## Data-URL / fileName claims -/

/-- Modelled from the spec's invariant wording ("fileName's extension must
match mimeType"): the extension expected for each MIME type the service
returns. -/
def extForMime (mime : String) : String :=
  if mime = "application/pdf" then ".pdf"
  else if mime = docxMimeType then ".docx"
  else if mime = "image/jpeg" then ".jpg"
  else if mime = "audio/mpeg" then ".mp3"
  else if mime = "audio/aac" then ".aac"
  else if mime = "audio/wav" then ".wav"
  else if mime = "audio/ogg" then ".ogg"
  else ""

theorem strMk_append_dot (pre : List Char) (sf : String) :
    String.mk pre ++ "." ++ sf = String.mk (pre ++ '.' :: sf.toList) := by
  show String.mk ((pre ++ ['.']) ++ sf.toList) = String.mk (pre ++ '.' :: sf.toList)
  rw [List.append_assoc]
  rfl

theorem allowed_format_cases (sf : String) (hsf : sf ∈ allowedOutputFormats) :
    sf = "mp3" ∨ sf = "aac" ∨ sf = "wav" ∨ sf = "ogg" := by
  simpa [allowedOutputFormats] using hsf

/-- After replacing a proper final extension with an allowed format, the
file name's extension is `"." ++ sf`. -/
theorem audio_filename_ext (name sf : String) (hsf : sf ∈ allowedOutputFormats)
    (hname : hasProperFinalExt name = true) :
    extname (replaceFinalExt name sf) = "." ++ sf := by
  obtain ⟨pre, ext, hdecomp, hpre, hext, hnd⟩ := hasProperFinalExt_decomp name hname
  have hname_eq : name = String.mk (pre ++ '.' :: ext) := by
    rw [← show String.mk name.toList = name from rfl, hdecomp]
  rw [hname_eq, replaceFinalExt_concat pre ext sf hext hnd, strMk_append_dot pre sf,
    extname_concat pre sf.toList hpre ?hnd2]
  · rfl
  case hnd2 =>
    rcases allowed_format_cases sf hsf with h | h | h | h <;> subst h <;> decide

theorem extForMime_audioMime (sf : String) (hsf : sf ∈ allowedOutputFormats) :
    extForMime (audioMime sf) = "." ++ sf := by
  rcases allowed_format_cases sf hsf with h | h | h | h <;> subst h <;> rfl

/-- C4 counterexample: an audio success whose original name has no
extension keeps that name unchanged, so its (empty) extension does not
match the returned `audio/mpeg` MIME type. -/
theorem C4_counterexample :
    (audioConvertHandler (some ⟨"p4", "song", "audio/flac", 3⟩) (some "mp3") none "u4"
        (fun _ => ProcOutcome.exited 0 "") (fun _ => Except.ok [1])).1 =
      Response.ok (fileToDataUrlResponse [1] "audio/mpeg" "song"
        [("targetFormat", MetaVal.s "mp3"), ("bitrate", MetaVal.s "192k"),
         ("size", MetaVal.n 1)]) ∧
    extname "song" = "" ∧ extForMime "audio/mpeg" = ".mp3" ∧ ("" : String) ≠ ".mp3" := by
  exact ⟨rfl, rfl, rfl, by decide⟩

/-- C4 amended: every success dataUrl is `data:<mimeType>;base64,<payload>`
whose payload decodes back to exactly the produced bytes; the fileName
extension matches the mimeType for the document endpoints and (for nonempty
identifiers) the image endpoint; the audio fileName replaces the original
final extension when the name has one with a nonempty stem — an original
name without such an extension is kept unchanged, so its extension need not
match. -/
theorem C4_dataurl_roundtrip_amended :
    (∀ (f : UploadedFile) (fsRead : String → Except String (List Nat))
      (convert : List Nat → Except String (List Nat)) (docxBuf pdfBuf : List Nat),
      fsRead f.path = Except.ok docxBuf → convert docxBuf = Except.ok pdfBuf →
      jsLower (extname f.originalname) = ".docx" → (∀ x ∈ pdfBuf, x < 256) →
      ∃ env, (docxToPdfHandler (some f) fsRead convert).1 = Response.ok env ∧
        env.dataUrl = "data:" ++ env.mimeType ++ ";base64," ++ b64Encode pdfBuf ∧
        b64Decode (b64Encode pdfBuf) = some pdfBuf ∧
        extname env.fileName = extForMime env.mimeType) ∧
    (∀ (f : UploadedFile) (fsRead : String → Except String (List Nat))
      (convert : List Nat → Except String (List Nat)) (pdfBuf docxBuf : List Nat),
      fsRead f.path = Except.ok pdfBuf → convert pdfBuf = Except.ok docxBuf →
      jsLower (extname f.originalname) = ".pdf" → (∀ x ∈ docxBuf, x < 256) →
      ∃ env, (pdfToDocxHandler (some f) fsRead convert).1 = Response.ok env ∧
        env.dataUrl = "data:" ++ env.mimeType ++ ";base64," ++ b64Encode docxBuf ∧
        b64Decode (b64Encode docxBuf) = some docxBuf ∧
        extname env.fileName = extForMime env.mimeType) ∧
    (∀ (f : UploadedFile) (uuid : String)
      (sharpJpeg70 : String → Except String (List Nat)) (buf : List Nat),
      f.mimetype ∈ imageAllowedMimes → sharpJpeg70 f.path = Except.ok buf →
      (∀ x ∈ buf, x < 256) → uuid ≠ "" →
      ∃ env, (imageCompressHandler (some f) uuid sharpJpeg70).1 = Response.ok env ∧
        env.dataUrl = "data:" ++ env.mimeType ++ ";base64," ++ b64Encode buf ∧
        b64Decode (b64Encode buf) = some buf ∧
        extname env.fileName = extForMime env.mimeType) ∧
    (∀ (f : UploadedFile) (tf br : Option String) (uuid : String)
      (run : List String → ProcOutcome) (fsRead : String → Except String (List Nat))
      (stderrTxt : String) (buf : List Nat),
      jsLower (tf.getD "mp3") ∈ allowedOutputFormats →
      f.mimetype ∈ allowedInputTypes →
      run (audioArgs f.path (audioOutputPath uuid (jsLower (tf.getD "mp3")))
          (jsLower (tf.getD "mp3")) (br.getD "192k")) = ProcOutcome.exited 0 stderrTxt →
      fsRead (audioOutputPath uuid (jsLower (tf.getD "mp3"))) = Except.ok buf →
      (∀ x ∈ buf, x < 256) →
      ∃ env, (audioConvertHandler (some f) tf br uuid run fsRead).1 = Response.ok env ∧
        env.dataUrl = "data:" ++ env.mimeType ++ ";base64," ++ b64Encode buf ∧
        b64Decode (b64Encode buf) = some buf ∧
        env.fileName = replaceFinalExt f.originalname (jsLower (tf.getD "mp3")) ∧
        (hasProperFinalExt f.originalname = true →
          extname env.fileName = extForMime env.mimeType)) := by
  refine ⟨?_, ?_, ?_, ?_⟩
  · intro f fsRead convert docxBuf pdfBuf hr hcv hlow hbytes
    obtain ⟨pre, ext, hdecomp, hpre, hnd, hext_eq⟩ :=
      extname_nonempty_decomp f.originalname (by
        intro hz
        rw [hz] at hlow
        exact absurd hlow (by decide))
    have hmap : ('.' :: ext).map Char.toLower = ".docx".toList := by
      have h2 : jsLower (String.mk ('.' :: ext)) = ".docx" := by
        rw [← hext_eq]; exact hlow
      simpa [jsLower] using congrArg String.toList h2
    refine ⟨fileToDataUrlResponse pdfBuf "application/pdf"
      (replaceExtSuffix f.originalname ".docx" ".pdf") [], ?_, rfl,
      b64_roundtrip pdfBuf hbytes, ?_⟩
    · simp only [docxToPdfHandler, docxToPdfTry]
      rw [if_neg (not_not_intro hlow)]
      simp only [hr, hcv]
    · show extname (replaceExtSuffix f.originalname ".docx" ".pdf") =
        extForMime "application/pdf"
      rw [replaceExtSuffix_match f.originalname ".docx" ".pdf" pre ('.' :: ext)
        hdecomp hmap]
      rw [show String.mk pre ++ ".pdf" = String.mk (pre ++ '.' :: ['p', 'd', 'f']) from rfl]
      rw [extname_concat pre ['p', 'd', 'f'] hpre (by decide)]
      rfl
  · intro f fsRead convert pdfBuf docxBuf hr hcv hlow hbytes
    obtain ⟨pre, ext, hdecomp, hpre, hnd, hext_eq⟩ :=
      extname_nonempty_decomp f.originalname (by
        intro hz
        rw [hz] at hlow
        exact absurd hlow (by decide))
    have hmap : ('.' :: ext).map Char.toLower = ".pdf".toList := by
      have h2 : jsLower (String.mk ('.' :: ext)) = ".pdf" := by
        rw [← hext_eq]; exact hlow
      simpa [jsLower] using congrArg String.toList h2
    refine ⟨fileToDataUrlResponse docxBuf docxMimeType
      (replaceExtSuffix f.originalname ".pdf" ".docx") [], ?_, rfl,
      b64_roundtrip docxBuf hbytes, ?_⟩
    · simp only [pdfToDocxHandler, pdfToDocxTry]
      rw [if_neg (not_not_intro hlow)]
      simp only [hr, hcv]
    · show extname (replaceExtSuffix f.originalname ".pdf" ".docx") =
        extForMime docxMimeType
      rw [replaceExtSuffix_match f.originalname ".pdf" ".docx" pre ('.' :: ext)
        hdecomp hmap]
      rw [show String.mk pre ++ ".docx" =
        String.mk (pre ++ '.' :: ['d', 'o', 'c', 'x']) from rfl]
      rw [extname_concat pre ['d', 'o', 'c', 'x'] hpre (by decide)]
      rfl
  · intro f uuid sharpJpeg70 buf hmime hsharp hbytes huuid
    refine ⟨fileToDataUrlResponse buf "image/jpeg" (uuid ++ ".jpg")
      [("originalSize", MetaVal.n f.size), ("compressedSize", MetaVal.n buf.length),
       ("compressionRatio", MetaVal.q ((buf.length : ℚ) / (f.size : ℚ)))], ?_, rfl,
      b64_roundtrip buf hbytes, ?_⟩
    · simp only [imageCompressHandler, imageCompressTry]
      rw [if_neg (not_not_intro hmime)]
      simp only [hsharp]
    · show extname (uuid ++ ".jpg") = extForMime "image/jpeg"
      have hul : uuid.toList ≠ [] := by
        intro hz
        apply huuid
        rw [← show String.mk uuid.toList = uuid from rfl, hz]
      rw [show (uuid ++ ".jpg" : String) =
        String.mk (uuid.toList ++ '.' :: ['j', 'p', 'g']) from rfl]
      rw [extname_concat uuid.toList ['j', 'p', 'g'] hul (by decide)]
      rfl
  · intro f tf br uuid run fsRead stderrTxt buf hfmt hmime hrun hread hbytes
    rw [audioConvertHandler_accepted f tf br uuid run fsRead hfmt hmime]
    rw [audioTry_exit0 f _ _ _ run fsRead stderrTxt buf hrun hread]
    refine ⟨_, rfl, rfl, b64_roundtrip buf hbytes, rfl, ?_⟩
    intro hname
    show extname (replaceFinalExt f.originalname (jsLower (tf.getD "mp3"))) =
      extForMime (audioMime (jsLower (tf.getD "mp3")))
    rw [audio_filename_ext f.originalname (jsLower (tf.getD "mp3")) hfmt hname,
      extForMime_audioMime (jsLower (tf.getD "mp3")) hfmt]

/-- Witness for C4 (amended): an accepted docx conversion round-trips its
bytes and names the output `.pdf`. -/
theorem C4_witness :
    ∃ env, (docxToPdfHandler (some ⟨"pc", "Report.docx", "m", 7⟩)
        (fun _ => Except.ok [5]) (fun _ => Except.ok [9, 250])).1 = Response.ok env ∧
      env.dataUrl = "data:" ++ env.mimeType ++ ";base64," ++ b64Encode [9, 250] ∧
      b64Decode (b64Encode [9, 250]) = some [9, 250] ∧
      extname env.fileName = extForMime env.mimeType :=
  C4_dataurl_roundtrip_amended.1 ⟨"pc", "Report.docx", "m", 7⟩
    (fun _ => Except.ok [5]) (fun _ => Except.ok [9, 250]) [5] [9, 250] rfl rfl
    (by decide) (by decide)
